import Mathlib

/-!
# SAMD21 blink / button / UART starter (`src/samd21/main.c`)

A shallow embedding of the firmware's drivers and control loop.

* The peripheral registers the firmware writes and the properties below speak
  about are fields of `Machine`: the TC3 compare and count registers, the
  SERCOM3 baud register and the sequence of values written to the SERCOM3 data
  register.  `Machine.calls` is a ghost log of the calls to `timer_set_period`
  and `uart_putc`, in the manner of a mock peripheral.
* The status flags the firmware busy-waits on are inputs: `Hw` gives the value
  each flag shows at every poll.  A busy-wait is run with a bound on the number
  of polls (`fuel`); `none` means the wait did not finish within the bound.
* `F_CPU` comes from the build (it is not defined in `main.c`) and is a
  parameter.  The return value of `HAL_GPIO_BUTTON_read()` (from `hal_gpio.h`)
  is an input of each loop iteration.
* Configuration writes whose values are macros of the device header (clock
  gating, mode bits, pin multiplexing, interrupt enable) touch registers that
  are outside `Machine`; they are listed as comments at their place.
* The handler `irq_handler_tc3` only toggles the LED pin and clears the match
  flag; it touches nothing in `Machine` or in the locals of `main` and is not
  part of the model.  `COUNT` is the value software wrote last, not the running
  count.
* Bytes (`char`) and the `uint16_t` argument of `timer_set_period` are given as
  natural numbers holding the value passed.
-/

namespace Samd21

/-- Macro `#define PERIOD_FAST 100`: the fast blink period in milliseconds. -/
def PERIOD_FAST : Nat := 100

/-- Macro `#define PERIOD_SLOW 500`: the slow blink period in milliseconds. -/
def PERIOD_SLOW : Nat := 500

/-- Status flags as the hardware shows them: the value read by poll number `t`. -/
structure Hw where
  /-- Flag `TC3->COUNT16.STATUS.bit.SYNCBUSY` -/
  tc3_syncbusy : Nat → Bool
  /-- Whether `SERCOM3->USART.SYNCBUSY.reg` is non-zero -/
  sercom3_syncbusy : Nat → Bool
  /-- Whether `SERCOM3->USART.INTFLAG.reg & SERCOM_USART_INTFLAG_DRE` is non-zero -/
  sercom3_dre : Nat → Bool

/-- Ghost record of a driver call. -/
inductive Call where
  | timer_set_period (i : Nat)
  | uart_putc (c : Nat)
  deriving DecidableEq, Repr

/-- Registers written by the firmware, with the ghost logs. -/
structure Machine where
  /-- Register `TC3->COUNT16.CC[0].reg` (16 bit) -/
  CC0 : Nat
  /-- Register `TC3->COUNT16.COUNT.reg` (16 bit), as last written by software -/
  COUNT : Nat
  /-- Register `SERCOM3->USART.BAUD.reg` (16 bit) -/
  BAUD : Nat
  /-- Every value written to `SERCOM3->USART.DATA.reg`, oldest first -/
  DATA : List Nat
  /-- Every call of `timer_set_period` and `uart_putc`, oldest first -/
  calls : List Call
  /-- Number of status-flag polls made so far -/
  polls : Nat
  deriving DecidableEq, Repr

/-- State right after reset: nothing written, nothing called. -/
def Machine.reset : Machine :=
  { CC0 := 0, COUNT := 0, BAUD := 0, DATA := [], calls := [], polls := 0 }

/-- The loop `while (flag);`: poll from poll number `t` on, at most `fuel`
times; the result is the poll number after the first poll that read `false`. -/
def busy_wait (flag : Nat → Bool) : Nat → Nat → Option Nat
  | 0, _ => none
  | fuel + 1, t => if flag t then busy_wait flag fuel (t + 1) else some (t + 1)

/-- Function `timer_sync`: `while (TC3->COUNT16.STATUS.bit.SYNCBUSY);` -/
def timer_sync (hw : Hw) (fuel : Nat) (m : Machine) : Option Machine :=
  (busy_wait hw.tc3_syncbusy fuel m.polls).map fun t => { m with polls := t }

/-- Function `timer_set_period(uint16_t i)`; `i` is the value of the argument.
The product is computed in `unsigned long`
(32 bit) and stored into the 16-bit register. -/
def timer_set_period (hw : Hw) (fuel : Nat) (F_CPU : Nat) (i : Nat) (m : Machine) :
    Option Machine := do
  let m := { m with calls := m.calls ++ [Call.timer_set_period i] }
  -- TC3->COUNT16.CC[0].reg = (F_CPU / 1000ul / 256) * i;
  let m := { m with CC0 := ((F_CPU / 1000 / 256) * i) % 2 ^ 32 % 2 ^ 16 }
  let m ← timer_sync hw fuel m
  -- TC3->COUNT16.COUNT.reg = 0;
  let m := { m with COUNT := 0 }
  timer_sync hw fuel m

/-- Function `timer_init`. -/
def timer_init (hw : Hw) (fuel : Nat) (F_CPU : Nat) (m : Machine) : Option Machine := do
  -- PM->APBCMASK.reg |= PM_APBCMASK_TC3;
  -- GCLK->CLKCTRL.reg = GCLK_CLKCTRL_ID(TC3_GCLK_ID) | GCLK_CLKCTRL_CLKEN | GCLK_CLKCTRL_GEN(0);
  -- TC3->COUNT16.CTRLA.reg = MODE_COUNT16 | WAVEGEN_MFRQ | PRESCALER_DIV256 | PRESCSYNC_RESYNC;
  let m ← timer_sync hw fuel m
  -- TC3->COUNT16.COUNT.reg = 0;
  let m := { m with COUNT := 0 }
  let m ← timer_sync hw fuel m
  let m ← timer_set_period hw fuel F_CPU PERIOD_SLOW m
  -- TC3->COUNT16.CTRLA.reg |= TC_CTRLA_ENABLE;
  let m ← timer_sync hw fuel m
  -- TC3->COUNT16.INTENSET.reg = TC_INTENSET_MC(1);  NVIC_EnableIRQ(TC3_IRQn);
  pure m

/-- Function `uart_sync`: `while (SERCOM3->USART.SYNCBUSY.reg);` -/
def uart_sync (hw : Hw) (fuel : Nat) (m : Machine) : Option Machine :=
  (busy_wait hw.sercom3_syncbusy fuel m.polls).map fun t => { m with polls := t }

/-- The local `br` of `uart_init`:
`uint64_t br = (uint64_t)65536 * (F_CPU - 16 * baud) / F_CPU;`
with `16 * baud` and the subtraction in 32-bit unsigned arithmetic (`baud` is a
`uint32_t`), the product and the quotient in 64-bit unsigned arithmetic. -/
def uart_br (F_CPU : Nat) (baud : Nat) : Nat :=
  65536 * ((F_CPU % 2 ^ 32 + 2 ^ 32 - (16 * baud) % 2 ^ 32) % 2 ^ 32) % 2 ^ 64 / F_CPU

/-- Function `uart_init(uint32_t baud)`. -/
def uart_init (hw : Hw) (fuel : Nat) (F_CPU : Nat) (baud : Nat) (m : Machine) :
    Option Machine := do
  let br := uart_br F_CPU baud
  -- HAL_GPIO_UART_TX_out(); HAL_GPIO_UART_TX_pmuxen(..); HAL_GPIO_UART_RX_in(); HAL_GPIO_UART_RX_pmuxen(..);
  -- PM->APBCMASK.reg |= PM_APBCMASK_SERCOM3;
  -- GCLK->CLKCTRL.reg = GCLK_CLKCTRL_ID(SERCOM3_GCLK_ID_CORE) | GCLK_CLKCTRL_CLKEN | GCLK_CLKCTRL_GEN(0);
  -- SERCOM3->USART.CTRLA.reg = DORD | MODE_USART_INT_CLK | RXPO(1) | TXPO(0);
  let m ← uart_sync hw fuel m
  -- SERCOM3->USART.CTRLB.reg = RXEN | TXEN | CHSIZE(0);
  let m ← uart_sync hw fuel m
  -- SERCOM3->USART.BAUD.reg = (uint16_t)br;
  let m := { m with BAUD := br % 2 ^ 16 }
  let m ← uart_sync hw fuel m
  -- SERCOM3->USART.CTRLA.reg |= SERCOM_USART_CTRLA_ENABLE;
  uart_sync hw fuel m

/-- Function `uart_putc(char c)`, `c` being the value of the character: wait for data-register-empty, then write `c` to `DATA`. -/
def uart_putc (hw : Hw) (fuel : Nat) (c : Nat) (m : Machine) : Option Machine := do
  let m := { m with calls := m.calls ++ [Call.uart_putc c] }
  -- while (!(SERCOM3->USART.INTFLAG.reg & SERCOM_USART_INTFLAG_DRE));
  let t ← busy_wait (fun t => !hw.sercom3_dre t) fuel m.polls
  -- SERCOM3->USART.DATA.reg = c;
  pure { m with polls := t, DATA := m.DATA ++ [c] }

/-- Function `uart_puts(char *s)`: `while (*s) uart_putc(*s++);`.  The argument is the
content of memory from `s` on; running off its end before a null byte is
undefined in C and gives `none`. -/
def uart_puts (hw : Hw) (fuel : Nat) : List Nat → Machine → Option Machine
  | [], _ => none
  | c :: s, m => if c = 0 then some m else (uart_putc hw fuel c m).bind (uart_puts hw fuel s)

/-- The string literal `"\r\nHello, world!\r\n"` as it lies in memory, with its
terminating null. -/
def greeting : List Nat :=
  [13, 10, 72, 101, 108, 108, 111, 44, 32, 119, 111, 114, 108, 100, 33, 13, 10, 0]

/-- The locals of `main` together with the machine. -/
structure Main where
  /-- Local `uint32_t cnt` -/
  cnt : Nat
  /-- Local `bool fast` -/
  fast : Bool
  /-- The peripheral registers and logs -/
  m : Machine
  deriving DecidableEq, Repr

/-- One pass through the body of `while (1)` in `main`; `read` is the value
returned by `HAL_GPIO_BUTTON_read()` in this pass. -/
def loop_iteration (hw : Hw) (fuel : Nat) (F_CPU : Nat) (read : Bool) (s : Main) :
    Option Main :=
  -- if (HAL_GPIO_BUTTON_read()) cnt = 0; else if (cnt < 5001) cnt++;
  let cnt := if read then 0 else if s.cnt < 5001 then (s.cnt + 1) % 2 ^ 32 else s.cnt
  -- if (5000 == cnt) { fast = !fast; timer_set_period(fast ? PERIOD_FAST : PERIOD_SLOW); uart_putc('.'); }
  if 5000 = cnt then
    let fast := !s.fast
    (timer_set_period hw fuel F_CPU (if fast then PERIOD_FAST else PERIOD_SLOW) s.m).bind
      fun m => (uart_putc hw fuel 46 m).bind
        fun m => some { cnt := cnt, fast := fast, m := m }
  else
    some { cnt := cnt, fast := s.fast, m := s.m }

/-- The `while (1)` loop of `main`, run for one pass per element of `reads`. -/
def main_loop (hw : Hw) (fuel : Nat) (F_CPU : Nat) : List Bool → Main → Option Main
  | [], s => some s
  | r :: rs, s => (loop_iteration hw fuel F_CPU r s).bind (main_loop hw fuel F_CPU rs)

/-- Function `main`, from reset, with the loop run for one pass per element of `reads`. -/
def main (hw : Hw) (fuel : Nat) (F_CPU : Nat) (reads : List Bool) : Option Main := do
  -- uint32_t cnt = 0; bool fast = false;
  -- sys_init();   (SYSCTRL->OSC8M.bit.PRESC = 0; cpsie i)
  let m ← timer_init hw fuel F_CPU Machine.reset
  let m ← uart_init hw fuel F_CPU 115200 m
  let m ← uart_puts hw fuel greeting m
  -- HAL_GPIO_LED_out(); HAL_GPIO_LED_clr(); HAL_GPIO_BUTTON_in(); HAL_GPIO_BUTTON_pullup();
  main_loop hw fuel F_CPU reads { cnt := 0, fast := false, m := m }

/-- Hardware whose flags never make the firmware wait. -/
def Hw.ready : Hw :=
  { tc3_syncbusy := fun _ => false, sercom3_syncbusy := fun _ => false,
    sercom3_dre := fun _ => true }

/-- Every busy-wait of the firmware ends within `fuel` polls, whenever it starts. -/
def Hw.Responsive (hw : Hw) (fuel : Nat) : Prop :=
  ∀ t, (∃ k, k < fuel ∧ hw.tc3_syncbusy (t + k) = false) ∧
       (∃ k, k < fuel ∧ hw.sercom3_syncbusy (t + k) = false) ∧
       (∃ k, k < fuel ∧ hw.sercom3_dre (t + k) = true)

/-- Round-to-nearest quotient of naturals (halves up), the `round(n / d)` of the
specification text. -/
def round_div (n d : Nat) : Nat := (2 * n + d) / (2 * d)

/-- Number of passes of the loop, run over `reads` from state `s`, in which the
value of `fast` changes. -/
def flips (hw : Hw) (fuel : Nat) (F_CPU : Nat) : List Bool → Main → Nat
  | [], _ => 0
  | r :: rs, s =>
    match loop_iteration hw fuel F_CPU r s with
    | none => 0
    | some s' => (if s'.fast = s.fast then 0 else 1) + flips hw fuel F_CPU rs s'

/-- Number of loop passes of `main`, run over `reads`, in which `fast` changes. -/
def main_flips (hw : Hw) (fuel : Nat) (F_CPU : Nat) (reads : List Bool) : Nat :=
  match main hw fuel F_CPU [] with
  | none => 0
  | some s => flips hw fuel F_CPU reads s

/-- The argument of the latest `timer_set_period` call in a call log. -/
def last_period : List Call → Option Nat
  | [] => none
  | Call.timer_set_period i :: cs => (last_period cs).orElse fun _ => some i
  | Call.uart_putc _ :: cs => last_period cs

/-- The characters of the greeting that stand in front of its null byte. -/
def greeting_text : List Nat := greeting.takeWhile (· != 0)

/-! ## Busy-waits and drivers -/

theorem busy_wait_some (flag : Nat → Bool) :
    ∀ (fuel t : Nat), (∃ k, k < fuel ∧ flag (t + k) = false) →
      ∃ t', busy_wait flag fuel t = some t' := by
  intro fuel
  induction fuel with
  | zero => rintro t ⟨k, hk, _⟩; omega
  | succ n ih =>
    rintro t ⟨k, hk, hf⟩
    unfold busy_wait
    by_cases hb : flag t = true
    · rw [if_pos hb]
      apply ih
      cases k with
      | zero => simp [hb] at hf
      | succ j => exact ⟨j, by omega, by rw [← hf]; congr 1; omega⟩
    · rw [if_neg hb]; exact ⟨_, rfl⟩

theorem timer_sync_some {hw : Hw} {fuel : Nat} (h : hw.Responsive fuel) (m : Machine) :
    ∃ t', timer_sync hw fuel m = some { m with polls := t' } := by
  obtain ⟨t', ht⟩ := busy_wait_some hw.tc3_syncbusy fuel m.polls (h m.polls).1
  exact ⟨t', by simp [timer_sync, ht]⟩

theorem uart_sync_some {hw : Hw} {fuel : Nat} (h : hw.Responsive fuel) (m : Machine) :
    ∃ t', uart_sync hw fuel m = some { m with polls := t' } := by
  obtain ⟨t', ht⟩ := busy_wait_some hw.sercom3_syncbusy fuel m.polls (h m.polls).2.1
  exact ⟨t', by simp [uart_sync, ht]⟩

theorem timer_set_period_some {hw : Hw} {fuel : Nat} (h : hw.Responsive fuel)
    (F_CPU i : Nat) (m : Machine) :
    ∃ t', timer_set_period hw fuel F_CPU i m =
      some { m with calls := m.calls ++ [Call.timer_set_period i],
                    CC0 := ((F_CPU / 1000 / 256) * i) % 2 ^ 16,
                    COUNT := 0, polls := t' } := by
  have hmod : ((F_CPU / 1000 / 256) * i) % 2 ^ 32 % 2 ^ 16 = ((F_CPU / 1000 / 256) * i) % 2 ^ 16 :=
    Nat.mod_mod_of_dvd _ (by norm_num)
  obtain ⟨t1, h1⟩ := timer_sync_some h
    { m with calls := m.calls ++ [Call.timer_set_period i],
             CC0 := ((F_CPU / 1000 / 256) * i) % 2 ^ 16 }
  obtain ⟨t2, h2⟩ := timer_sync_some h
    { m with calls := m.calls ++ [Call.timer_set_period i],
             CC0 := ((F_CPU / 1000 / 256) * i) % 2 ^ 16, COUNT := 0, polls := t1 }
  refine ⟨t2, ?_⟩
  dsimp only at h1 h2
  simp only [timer_set_period, bind, Option.bind, hmod, h1, h2]

theorem timer_init_some {hw : Hw} {fuel : Nat} (h : hw.Responsive fuel)
    (F_CPU : Nat) (m : Machine) :
    ∃ t', timer_init hw fuel F_CPU m =
      some { m with calls := m.calls ++ [Call.timer_set_period 500],
                    CC0 := ((F_CPU / 1000 / 256) * 500) % 2 ^ 16,
                    COUNT := 0, polls := t' } := by
  obtain ⟨t1, h1⟩ := timer_sync_some h m
  obtain ⟨t2, h2⟩ := timer_sync_some h { m with COUNT := 0, polls := t1 }
  obtain ⟨t3, h3⟩ := timer_set_period_some h F_CPU 500 { m with COUNT := 0, polls := t2 }
  obtain ⟨t4, h4⟩ := timer_sync_some h
    { m with calls := m.calls ++ [Call.timer_set_period 500],
             CC0 := ((F_CPU / 1000 / 256) * 500) % 2 ^ 16, COUNT := 0, polls := t3 }
  refine ⟨t4, ?_⟩
  dsimp only at h1 h2 h3 h4
  simp only [timer_init, PERIOD_SLOW, bind, Option.bind, h1, h2, h3, h4, pure]

theorem uart_init_some {hw : Hw} {fuel : Nat} (h : hw.Responsive fuel)
    (F_CPU baud : Nat) (m : Machine) :
    ∃ t', uart_init hw fuel F_CPU baud m =
      some { m with BAUD := uart_br F_CPU baud % 2 ^ 16, polls := t' } := by
  obtain ⟨t1, h1⟩ := uart_sync_some h m
  obtain ⟨t2, h2⟩ := uart_sync_some h { m with polls := t1 }
  obtain ⟨t3, h3⟩ := uart_sync_some h
    { m with BAUD := uart_br F_CPU baud % 2 ^ 16, polls := t2 }
  obtain ⟨t4, h4⟩ := uart_sync_some h
    { m with BAUD := uart_br F_CPU baud % 2 ^ 16, polls := t3 }
  refine ⟨t4, ?_⟩
  dsimp only at h1 h2 h3 h4
  simp only [uart_init, bind, Option.bind, h1, h2, h3, h4]

theorem uart_putc_some {hw : Hw} {fuel : Nat} (h : hw.Responsive fuel)
    (c : Nat) (m : Machine) :
    ∃ t', uart_putc hw fuel c m =
      some { m with calls := m.calls ++ [Call.uart_putc c], DATA := m.DATA ++ [c],
                    polls := t' } := by
  obtain ⟨t1, h1⟩ := busy_wait_some (fun t => !hw.sercom3_dre t) fuel m.polls (by
    obtain ⟨k, hk, hd⟩ := (h m.polls).2.2
    exact ⟨k, hk, by simp [hd]⟩)
  refine ⟨t1, ?_⟩
  simp only [uart_putc, bind, Option.bind, h1, pure]

theorem uart_puts_some {hw : Hw} {fuel : Nat} (h : hw.Responsive fuel) :
    ∀ (s : List Nat) (m : Machine), 0 ∈ s →
      ∃ t', uart_puts hw fuel s m =
        some { m with calls := m.calls ++ (s.takeWhile (· != 0)).map Call.uart_putc,
                      DATA := m.DATA ++ s.takeWhile (· != 0), polls := t' } := by
  intro s
  induction s with
  | nil => intro m h0; simp at h0
  | cons c s ih =>
    intro m h0
    by_cases hc : c = 0
    · subst hc
      exact ⟨m.polls, by simp [uart_puts]⟩
    · have hs : 0 ∈ s := by
        rcases List.mem_cons.mp h0 with h1 | h1
        · exact absurd h1.symm hc
        · exact h1
      obtain ⟨t1, h1⟩ := uart_putc_some h c m
      obtain ⟨t2, h2⟩ := ih { m with calls := m.calls ++ [Call.uart_putc c],
                                      DATA := m.DATA ++ [c], polls := t1 } hs
      refine ⟨t2, ?_⟩
      dsimp only at h2
      have hne : (c != 0) = true := by simp [hc]
      simp only [uart_puts, if_neg hc, h1, Option.bind, h2, List.takeWhile_cons, hne, if_true,
        List.map_cons, List.append_assoc, List.singleton_append]

theorem loop_iteration_spec {hw : Hw} {fuel : Nat} (h : hw.Responsive fuel)
    (F_CPU : Nat) (r : Bool) (s : Main) :
    ∃ s', loop_iteration hw fuel F_CPU r s = some s' ∧
      s'.cnt = (if r then 0 else if s.cnt < 5001 then s.cnt + 1 else s.cnt) ∧
      (s'.cnt = 5000 →
        s'.fast = !s.fast ∧
        s'.m.calls = s.m.calls ++
          [Call.timer_set_period (if s'.fast then 100 else 500), Call.uart_putc 46] ∧
        s'.m.DATA = s.m.DATA ++ [46] ∧
        s'.m.CC0 = ((F_CPU / 1000 / 256) * (if s'.fast then 100 else 500)) % 2 ^ 16 ∧
        s'.m.COUNT = 0 ∧ s'.m.BAUD = s.m.BAUD) ∧
      (s'.cnt ≠ 5000 → s'.fast = s.fast ∧ s'.m = s.m) := by
  have hcnt : (if r then 0 else if s.cnt < 5001 then (s.cnt + 1) % 2 ^ 32 else s.cnt) =
      (if r then 0 else if s.cnt < 5001 then s.cnt + 1 else s.cnt) := by
    split_ifs with h1 h2
    · rfl
    · exact Nat.mod_eq_of_lt (by omega)
    · rfl
  by_cases h5 : 5000 = (if r then 0 else if s.cnt < 5001 then s.cnt + 1 else s.cnt)
  · obtain ⟨t1, h1⟩ := timer_set_period_some h F_CPU
      (if (!s.fast) = true then PERIOD_FAST else PERIOD_SLOW) s.m
    obtain ⟨t2, h2⟩ := uart_putc_some h 46
      { s.m with calls := s.m.calls ++
                   [Call.timer_set_period (if (!s.fast) = true then PERIOD_FAST else PERIOD_SLOW)],
                 CC0 := ((F_CPU / 1000 / 256) *
                   (if (!s.fast) = true then PERIOD_FAST else PERIOD_SLOW)) % 2 ^ 16,
                 COUNT := 0, polls := t1 }
    dsimp only at h2
    refine ⟨{ cnt := (if r then 0 else if s.cnt < 5001 then s.cnt + 1 else s.cnt),
              fast := !s.fast,
              m := { s.m with
                calls := s.m.calls ++
                  [Call.timer_set_period (if (!s.fast) = true then PERIOD_FAST else PERIOD_SLOW)]
                  ++ [Call.uart_putc 46],
                CC0 := ((F_CPU / 1000 / 256) *
                  (if (!s.fast) = true then PERIOD_FAST else PERIOD_SLOW)) % 2 ^ 16,
                COUNT := 0, DATA := s.m.DATA ++ [46], polls := t2 } }, ?_, rfl, ?_, ?_⟩
    · simp only [loop_iteration, hcnt, if_pos h5, h1, Option.bind, h2]
    · intro _
      simp [PERIOD_FAST, PERIOD_SLOW]
    · intro hne
      exact absurd h5.symm hne
  · refine ⟨{ cnt := (if r then 0 else if s.cnt < 5001 then s.cnt + 1 else s.cnt),
              fast := s.fast, m := s.m }, ?_, rfl, ?_, ?_⟩
    · simp only [loop_iteration, hcnt, if_neg h5]
    · intro h6
      exact absurd h6.symm h5
    · intro _
      exact ⟨rfl, rfl⟩

/-! ## The loop over a sequence of button reads -/

theorem ready_responsive : Hw.ready.Responsive 1 :=
  fun _ => ⟨⟨0, Nat.one_pos, rfl⟩, ⟨0, Nat.one_pos, rfl⟩, ⟨0, Nat.one_pos, rfl⟩⟩

theorem main_loop_append (hw : Hw) (fuel F_CPU : Nat) :
    ∀ (a b : List Bool) (s : Main),
      main_loop hw fuel F_CPU (a ++ b) s =
        (main_loop hw fuel F_CPU a s).bind (main_loop hw fuel F_CPU b) := by
  intro a
  induction a with
  | nil => intro b s; rfl
  | cons r a ih =>
    intro b s
    simp only [List.cons_append, main_loop]
    cases loop_iteration hw fuel F_CPU r s with
    | none => rfl
    | some s1 => exact ih b s1

theorem main_eq_bind (hw : Hw) (fuel F_CPU : Nat) (reads : List Bool) :
    main hw fuel F_CPU reads = (main hw fuel F_CPU []).bind (main_loop hw fuel F_CPU reads) := by
  simp only [main, bind, main_loop]
  cases timer_init hw fuel F_CPU Machine.reset with
  | none => rfl
  | some m1 =>
    simp only [Option.bind]
    cases uart_init hw fuel F_CPU 115200 m1 with
    | none => rfl
    | some m2 =>
      simp only [Option.bind]
      cases uart_puts hw fuel greeting m2 with
      | none => rfl
      | some m3 => rfl

theorem main_append (hw : Hw) (fuel F_CPU : Nat) (a b : List Bool) :
    main hw fuel F_CPU (a ++ b) = (main hw fuel F_CPU a).bind (main_loop hw fuel F_CPU b) := by
  rw [main_eq_bind hw fuel F_CPU (a ++ b), main_eq_bind hw fuel F_CPU a]
  cases main hw fuel F_CPU [] with
  | none => rfl
  | some s0 => simp only [Option.bind, main_loop_append]

theorem main_of_boot {hw : Hw} {fuel F_CPU : Nat} {s0 : Main}
    (h0 : main hw fuel F_CPU [] = some s0) (reads : List Bool) :
    main hw fuel F_CPU reads = main_loop hw fuel F_CPU reads s0 := by
  rw [main_eq_bind, h0]
  rfl

theorem main_append_of {hw : Hw} {fuel F_CPU : Nat} {a : List Bool} {s : Main}
    (ha : main hw fuel F_CPU a = some s) (b : List Bool) :
    main hw fuel F_CPU (a ++ b) = main_loop hw fuel F_CPU b s := by
  rw [main_append, ha]
  rfl

theorem main_boot {hw : Hw} {fuel : Nat} (h : hw.Responsive fuel) (F_CPU : Nat) :
    ∃ s0, main hw fuel F_CPU [] = some s0 ∧ s0.cnt = 0 ∧ s0.fast = false ∧
      s0.m.calls = Call.timer_set_period 500 :: greeting_text.map Call.uart_putc ∧
      s0.m.DATA = greeting_text ∧
      s0.m.CC0 = ((F_CPU / 1000 / 256) * 500) % 2 ^ 16 ∧ s0.m.COUNT = 0 ∧
      s0.m.BAUD = uart_br F_CPU 115200 % 2 ^ 16 := by
  obtain ⟨t1, h1⟩ := timer_init_some h F_CPU Machine.reset
  obtain ⟨t2, h2⟩ := uart_init_some h F_CPU 115200
    { Machine.reset with calls := Machine.reset.calls ++ [Call.timer_set_period 500],
                         CC0 := ((F_CPU / 1000 / 256) * 500) % 2 ^ 16, COUNT := 0, polls := t1 }
  dsimp only at h2
  obtain ⟨t3, h3⟩ := uart_puts_some h greeting
    { Machine.reset with calls := Machine.reset.calls ++ [Call.timer_set_period 500],
                         CC0 := ((F_CPU / 1000 / 256) * 500) % 2 ^ 16, COUNT := 0,
                         BAUD := uart_br F_CPU 115200 % 2 ^ 16, polls := t2 } (by decide)
  dsimp only at h3
  refine ⟨{ cnt := 0, fast := false,
            m := { CC0 := F_CPU / 1000 / 256 * 500 % 2 ^ 16, COUNT := 0,
                   BAUD := uart_br F_CPU 115200 % 2 ^ 16,
                   DATA := Machine.reset.DATA ++ List.takeWhile (fun x => x != 0) greeting,
                   calls := Machine.reset.calls ++ [Call.timer_set_period 500] ++
                     List.map Call.uart_putc (List.takeWhile (fun x => x != 0) greeting),
                   polls := t3 } }, ?_, ?_⟩
  · simp only [main, bind, Option.bind, h1, h2, h3, main_loop]
  · simp [Machine.reset, greeting_text]

theorem main_loop_some {hw : Hw} {fuel : Nat} (h : hw.Responsive fuel) (F_CPU : Nat) :
    ∀ (reads : List Bool) (s : Main), ∃ s', main_loop hw fuel F_CPU reads s = some s' := by
  intro reads
  induction reads with
  | nil => intro s; exact ⟨s, rfl⟩
  | cons r rs ih =>
    intro s
    obtain ⟨s1, h1, _⟩ := loop_iteration_spec h F_CPU r s
    obtain ⟨s2, h2⟩ := ih s1
    exact ⟨s2, by simp only [main_loop, h1, Option.bind, h2]⟩

theorem main_some {hw : Hw} {fuel : Nat} (h : hw.Responsive fuel) (F_CPU : Nat)
    (reads : List Bool) : ∃ s, main hw fuel F_CPU reads = some s := by
  obtain ⟨s0, h0, _⟩ := main_boot h F_CPU
  obtain ⟨s, hs⟩ := main_loop_some h F_CPU reads s0
  exact ⟨s, by rw [main_eq_bind, h0]; exact hs⟩

/-- Run invariant: a property of the state after boot that every loop pass
preserves holds after any number of passes. -/
theorem main_invariant {hw : Hw} {fuel : Nat} (h : hw.Responsive fuel) (F_CPU : Nat)
    (P : Main → Prop)
    (h0 : ∀ s0, main hw fuel F_CPU [] = some s0 → P s0)
    (hstep : ∀ r s s', P s → loop_iteration hw fuel F_CPU r s = some s' → P s')
    (reads : List Bool) : ∃ s, main hw fuel F_CPU reads = some s ∧ P s := by
  obtain ⟨s0, hs0, _⟩ := main_boot h F_CPU
  have key : ∀ (reads : List Bool) (s : Main), P s →
      ∃ s', main_loop hw fuel F_CPU reads s = some s' ∧ P s' := by
    intro reads
    induction reads with
    | nil => intro s hP; exact ⟨s, rfl, hP⟩
    | cons r rs ih =>
      intro s hP
      obtain ⟨s1, h1, _⟩ := loop_iteration_spec h F_CPU r s
      obtain ⟨s2, h2, hP2⟩ := ih s1 (hstep r s s1 hP h1)
      exact ⟨s2, by simp only [main_loop, h1, Option.bind, h2], hP2⟩
  obtain ⟨s, hs, hP⟩ := key reads s0 (h0 s0 hs0)
  exact ⟨s, by rw [main_eq_bind, hs0]; exact hs, hP⟩

theorem loop_iteration_true (hw : Hw) (fuel F_CPU : Nat) (s : Main) :
    loop_iteration hw fuel F_CPU true s = some { s with cnt := 0 } := by
  simp [loop_iteration]

theorem loop_iteration_false_quiet (hw : Hw) (fuel F_CPU : Nat) (s : Main)
    (h : s.cnt ≠ 4999) :
    loop_iteration hw fuel F_CPU false s =
      some { s with cnt := if s.cnt < 5001 then s.cnt + 1 else s.cnt } := by
  have hcnt : (if s.cnt < 5001 then (s.cnt + 1) % 2 ^ 32 else s.cnt) =
      (if s.cnt < 5001 then s.cnt + 1 else s.cnt) := by
    split_ifs with h2
    · exact Nat.mod_eq_of_lt (by omega)
    · rfl
  have hne : ¬ 5000 = (if s.cnt < 5001 then s.cnt + 1 else s.cnt) := by
    split_ifs <;> omega
  simp only [loop_iteration, Bool.false_eq_true, if_false, hcnt, if_neg hne]

theorem main_loop_held_lt (hw : Hw) (fuel F_CPU : Nat) :
    ∀ (n : Nat) (s : Main), s.cnt + n < 5000 →
      main_loop hw fuel F_CPU (List.replicate n false) s = some { s with cnt := s.cnt + n } := by
  intro n
  induction n with
  | zero => intro s _; rfl
  | succ n ih =>
    intro s hlt
    have h1 := loop_iteration_false_quiet hw fuel F_CPU s (by omega)
    rw [if_pos (by omega)] at h1
    simp only [List.replicate_succ, main_loop, h1, Option.bind]
    rw [ih _ (by show s.cnt + 1 + n < 5000; omega)]
    simp only [Nat.add_assoc, Nat.add_comm 1 n]

theorem main_loop_held_cap (hw : Hw) (fuel F_CPU : Nat) :
    ∀ (n : Nat) (s : Main), s.cnt = 5001 →
      main_loop hw fuel F_CPU (List.replicate n false) s = some s := by
  intro n
  induction n with
  | zero => intro s _; rfl
  | succ n ih =>
    intro s hc
    have h1 := loop_iteration_false_quiet hw fuel F_CPU s (by omega)
    rw [if_neg (by omega)] at h1
    have hs : ({ s with cnt := s.cnt } : Main) = s := rfl
    rw [hs] at h1
    simp only [List.replicate_succ, main_loop, h1, Option.bind]
    exact ih s hc

theorem main_loop_held_past (hw : Hw) (fuel F_CPU : Nat) (n : Nat) (s : Main)
    (hc : s.cnt = 5000) :
    main_loop hw fuel F_CPU (List.replicate (n + 1) false) s = some { s with cnt := 5001 } := by
  have h1 := loop_iteration_false_quiet hw fuel F_CPU s (by omega)
  rw [if_pos (by omega), hc] at h1
  simp only [List.replicate_succ, main_loop, h1, Option.bind]
  exact main_loop_held_cap hw fuel F_CPU n _ rfl

/-- From a counter of 0, 5000 passes with the button read as false: nothing
happens in the first 4999, the 5000th flips `fast`, sets the period and sends
one `.`. -/
theorem main_loop_hold_5000 {hw : Hw} {fuel : Nat} (h : hw.Responsive fuel) (F_CPU : Nat)
    (s : Main) (hc : s.cnt = 0) :
    (∀ k, k < 5000 →
      main_loop hw fuel F_CPU (List.replicate k false) s = some { s with cnt := k }) ∧
    ∃ s1, main_loop hw fuel F_CPU (List.replicate 5000 false) s = some s1 ∧
      s1.cnt = 5000 ∧ s1.fast = (!s.fast) ∧
      s1.m.calls = s.m.calls ++
        [Call.timer_set_period (if s.fast then 500 else 100), Call.uart_putc 46] ∧
      s1.m.DATA = s.m.DATA ++ [46] := by
  have hlt : ∀ k, k < 5000 →
      main_loop hw fuel F_CPU (List.replicate k false) s = some { s with cnt := k } := by
    intro k hk
    rw [main_loop_held_lt hw fuel F_CPU k s (by omega), hc, Nat.zero_add]
  refine ⟨hlt, ?_⟩
  obtain ⟨s1, hs1, hcnt, h5, _⟩ := loop_iteration_spec h F_CPU false { s with cnt := 4999 }
  have hc1 : s1.cnt = 5000 := by rw [hcnt]; simp
  obtain ⟨hf, hcalls, hdata, _⟩ := h5 hc1
  refine ⟨s1, ?_, hc1, hf, ?_, hdata⟩
  · have : List.replicate 5000 false = List.replicate 4999 false ++ [false] :=
      List.replicate_succ' 4999 false
    rw [this, main_loop_append, hlt 4999 (by omega)]
    simp only [Option.bind, main_loop, hs1]
  · rw [hcalls, hf]
    cases s.fast <;> rfl

theorem last_period_putc (l : List Nat) : last_period (l.map Call.uart_putc) = none := by
  induction l with
  | nil => rfl
  | cons c l ih => simpa [last_period] using ih

theorem last_period_append (i c : Nat) :
    ∀ cs : List Call,
      last_period (cs ++ [Call.timer_set_period i, Call.uart_putc c]) = some i := by
  intro cs
  induction cs with
  | nil => rfl
  | cons x cs ih =>
    cases x with
    | timer_set_period j => simp [last_period, ih]
    | uart_putc d => simpa [last_period] using ih

/-- The latest period passed to `timer_set_period` and the compare register
follow `fast`, after boot and after every loop pass. -/
theorem period_follows_fast {hw : Hw} {fuel : Nat} (h : hw.Responsive fuel) (F_CPU : Nat)
    (reads : List Bool) :
    ∃ s, main hw fuel F_CPU reads = some s ∧
      last_period s.m.calls = some (if s.fast then 100 else 500) ∧
      s.m.CC0 = ((F_CPU / 1000 / 256) * (if s.fast then 100 else 500)) % 2 ^ 16 := by
  refine main_invariant h F_CPU
    (fun s => last_period s.m.calls = some (if s.fast then 100 else 500) ∧
      s.m.CC0 = ((F_CPU / 1000 / 256) * (if s.fast then 100 else 500)) % 2 ^ 16)
    ?_ ?_ reads
  · intro s0 h0
    obtain ⟨s1, h1, _, hf, hcalls, _, hcc, _⟩ := main_boot h F_CPU
    rw [h0] at h1
    cases h1
    refine ⟨?_, ?_⟩
    · rw [hcalls, hf]
      simp [last_period, last_period_putc]
    · rw [hcc, hf]
      simp
  · intro r s s' hP hstep
    obtain ⟨s1, h1, _, h5, hn5⟩ := loop_iteration_spec h F_CPU r s
    rw [hstep] at h1
    cases h1
    by_cases hc : s'.cnt = 5000
    · obtain ⟨_, hcalls, _, hcc, _⟩ := h5 hc
      exact ⟨by rw [hcalls]; exact last_period_append _ _ _, hcc⟩
    · obtain ⟨hf, hm⟩ := hn5 hc
      show last_period s'.m.calls = _ ∧ s'.m.CC0 = _
      rw [hm, hf]
      exact hP

/-- The bytes written by a run of the loop are one `.` for each flip of `fast`. -/
theorem main_loop_data {hw : Hw} {fuel : Nat} (h : hw.Responsive fuel) (F_CPU : Nat) :
    ∀ (reads : List Bool) (s : Main),
      ∃ s', main_loop hw fuel F_CPU reads s = some s' ∧
        s'.m.DATA = s.m.DATA ++ List.replicate (flips hw fuel F_CPU reads s) 46 := by
  intro reads
  induction reads with
  | nil => intro s; exact ⟨s, rfl, by simp [flips]⟩
  | cons r rs ih =>
    intro s
    obtain ⟨s1, h1, _, h5, hn5⟩ := loop_iteration_spec h F_CPU r s
    obtain ⟨s2, h2, hd⟩ := ih s1
    refine ⟨s2, by simp only [main_loop, h1, Option.bind, h2], ?_⟩
    rw [hd]
    simp only [flips, h1]
    by_cases hc : s1.cnt = 5000
    · obtain ⟨hf, _, hdata, _⟩ := h5 hc
      have hne : ¬ s1.fast = s.fast := by rw [hf]; cases s.fast <;> simp
      rw [if_neg hne, hdata, Nat.add_comm, List.replicate_succ, List.append_assoc]
      rfl
    · obtain ⟨hf, hm⟩ := hn5 hc
      rw [if_pos hf, hm, Nat.zero_add]

/-! ## Hold counter -/

/-- C1 (as stated, refuted): with `HAL_GPIO_BUTTON_read()` returning false (pin
low, button pressed) and the hold counter at 0, one loop pass leaves the counter
at 1; it is not reset to 0. -/
theorem C1_counterexample :
    (loop_iteration Hw.ready 1 8000000 false
        { cnt := 0, fast := false, m := Machine.reset }).map Main.cnt = some 1 ∧
    (loop_iteration Hw.ready 1 8000000 false
        { cnt := 0, fast := false, m := Machine.reset }).map Main.cnt ≠ some 0 := by
  decide

/-- C1 (amended): one loop pass sets the hold counter to 0 when
`HAL_GPIO_BUTTON_read()` returns true (pin high, button released); when it
returns false (pin low, button pressed) a counter `c < 5001` becomes `c + 1` and
a counter `c ≥ 5001` is unchanged. -/
theorem C1_hold_counter_update (hw : Hw) (fuel F_CPU : Nat) (h : hw.Responsive fuel)
    (read : Bool) (s : Main) :
    ∃ s', loop_iteration hw fuel F_CPU read s = some s' ∧
      (read = true → s'.cnt = 0) ∧
      (read = false → s.cnt < 5001 → s'.cnt = s.cnt + 1) ∧
      (read = false → 5001 ≤ s.cnt → s'.cnt = s.cnt) := by
  obtain ⟨s', hs, hc, _⟩ := loop_iteration_spec h F_CPU read s
  refine ⟨s', hs, ?_, ?_, ?_⟩
  · intro hr; rw [hc, if_pos hr]
  · intro hr hlt; rw [hc, if_neg (by simp [hr]), if_pos hlt]
  · intro hr hge; rw [hc, if_neg (by simp [hr]), if_neg (by omega)]

theorem C1_hold_counter_update_witness :
    Hw.ready.Responsive 1 ∧
    ∃ s', loop_iteration Hw.ready 1 8000000 false
        { cnt := 4999, fast := false, m := Machine.reset } = some s' ∧
      (false = true → s'.cnt = 0) ∧
      (false = false → 4999 < 5001 → s'.cnt = 4999 + 1) ∧
      (false = false → 5001 ≤ 4999 → s'.cnt = 4999) :=
  ⟨ready_responsive, C1_hold_counter_update Hw.ready 1 8000000 ready_responsive false
    { cnt := 4999, fast := false, m := Machine.reset }⟩

/-- C9: from reset, after any number of loop passes over any button reads, the
hold counter is at most 5001, hence inside the range of a `uint32_t`. -/
theorem C9_counter_bounded (hw : Hw) (fuel F_CPU : Nat) (h : hw.Responsive fuel)
    (reads : List Bool) :
    ∃ s, main hw fuel F_CPU reads = some s ∧ 0 ≤ s.cnt ∧ s.cnt ≤ 5001 ∧ s.cnt < 2 ^ 32 := by
  obtain ⟨s, hs, hP⟩ := main_invariant h F_CPU (fun s => s.cnt ≤ 5001)
    (by
      intro s0 h0
      obtain ⟨s1, h1, hc, _⟩ := main_boot h F_CPU
      rw [h0] at h1
      cases h1
      show s0.cnt ≤ 5001
      omega)
    (by
      intro r s s' hP hstep
      obtain ⟨s1, h1, hc, _⟩ := loop_iteration_spec h F_CPU r s
      rw [hstep] at h1
      cases h1
      show s'.cnt ≤ 5001
      rw [hc]
      split_ifs <;> omega)
    reads
  have hP' : s.cnt ≤ 5001 := hP
  exact ⟨s, hs, Nat.zero_le _, hP', by omega⟩

theorem C9_counter_bounded_witness :
    Hw.ready.Responsive 1 ∧
    ∃ s, main Hw.ready 1 8000000 [false, false, true, false] = some s ∧
      0 ≤ s.cnt ∧ s.cnt ≤ 5001 ∧ s.cnt < 2 ^ 32 :=
  ⟨ready_responsive, C9_counter_bounded Hw.ready 1 8000000 ready_responsive [false, false, true, false]⟩

/-! ## Effects of a flip -/

/-- C3: in a loop pass in which `fast` changes, the pass makes exactly the calls
`timer_set_period(fast ? PERIOD_FAST : PERIOD_SLOW)` (100 when `fast` has become
true, 500 when false) and then `uart_putc('.')`, writing the single byte `.`; in
a pass in which `fast` does not change there is no call and no byte written. -/
theorem C3_flip_effects (hw : Hw) (fuel F_CPU : Nat) (h : hw.Responsive fuel)
    (read : Bool) (s : Main) :
    ∃ s', loop_iteration hw fuel F_CPU read s = some s' ∧
      (s'.fast ≠ s.fast →
        s'.m.calls = s.m.calls ++
          [Call.timer_set_period (if s'.fast then 100 else 500), Call.uart_putc 46] ∧
        s'.m.DATA = s.m.DATA ++ [46]) ∧
      (s'.fast = s.fast → s'.m.calls = s.m.calls ∧ s'.m.DATA = s.m.DATA) ∧
      PERIOD_FAST = 100 ∧ PERIOD_SLOW = 500 := by
  obtain ⟨s', hs, _, h5, hn5⟩ := loop_iteration_spec h F_CPU read s
  refine ⟨s', hs, ?_, ?_, rfl, rfl⟩
  · intro hne
    by_cases hc : s'.cnt = 5000
    · exact ⟨(h5 hc).2.1, (h5 hc).2.2.1⟩
    · exact absurd (hn5 hc).1 hne
  · intro heq
    by_cases hc : s'.cnt = 5000
    · have := (h5 hc).1
      rw [heq] at this
      cases hf : s.fast <;> simp [hf] at this
    · rw [(hn5 hc).2]
      exact ⟨rfl, rfl⟩

theorem C3_flip_effects_witness :
    Hw.ready.Responsive 1 ∧
    ∃ s', loop_iteration Hw.ready 1 8000000 false
        { cnt := 4999, fast := false, m := Machine.reset } = some s' ∧
      (s'.fast ≠ false →
        s'.m.calls = Machine.reset.calls ++
          [Call.timer_set_period (if s'.fast then 100 else 500), Call.uart_putc 46] ∧
        s'.m.DATA = Machine.reset.DATA ++ [46]) ∧
      (s'.fast = false → s'.m.calls = Machine.reset.calls ∧ s'.m.DATA = Machine.reset.DATA) ∧
      PERIOD_FAST = 100 ∧ PERIOD_SLOW = 500 :=
  ⟨ready_responsive, C3_flip_effects Hw.ready 1 8000000 ready_responsive false
    { cnt := 4999, fast := false, m := Machine.reset }⟩

/-! ## Timer period -/

/-- C5 (as stated, refuted): at `F_CPU = 8000000` the call
`timer_set_period(2115)` leaves 29 in the 16-bit compare register, not the
product `(F_CPU / 1000 / 256) * 2115 = 65565`. -/
theorem C5_counterexample :
    (timer_set_period Hw.ready 1 8000000 2115 Machine.reset).map Machine.CC0 = some 29 ∧
    (timer_set_period Hw.ready 1 8000000 2115 Machine.reset).map Machine.CC0 ≠
      some ((8000000 / 1000 / 256) * 2115) := by
  decide

/-- C5 (amended): when the sync-busy waits end, `timer_set_period(p)` returns
with the compare register holding `(F_CPU / 1000 / 256) * p` reduced modulo
`2 ^ 16`, which is the product itself whenever the product is below `2 ^ 16`
(at `F_CPU = 8000000` for every `p ≤ 2114`), and with the count register 0. -/
theorem C5_timer_set_period (hw : Hw) (fuel F_CPU : Nat) (h : hw.Responsive fuel)
    (p : Nat) (m : Machine) :
    ∃ m', timer_set_period hw fuel F_CPU p m = some m' ∧
      m'.CC0 = ((F_CPU / 1000 / 256) * p) % 2 ^ 16 ∧
      ((F_CPU / 1000 / 256) * p < 2 ^ 16 → m'.CC0 = (F_CPU / 1000 / 256) * p) ∧
      (F_CPU = 8000000 → p ≤ 2114 → m'.CC0 = (F_CPU / 1000 / 256) * p) ∧
      m'.COUNT = 0 := by
  obtain ⟨t', ht⟩ := timer_set_period_some h F_CPU p m
  refine ⟨_, ht, rfl, fun hlt => Nat.mod_eq_of_lt hlt, ?_, rfl⟩
  intro hF hp
  have h31 : F_CPU / 1000 / 256 = 31 := by rw [hF]
  show (F_CPU / 1000 / 256) * p % 2 ^ 16 = (F_CPU / 1000 / 256) * p
  rw [h31]
  omega

theorem C5_timer_set_period_witness :
    Hw.ready.Responsive 1 ∧
    ∃ m', timer_set_period Hw.ready 1 8000000 100 Machine.reset = some m' ∧
      m'.CC0 = ((8000000 / 1000 / 256) * 100) % 2 ^ 16 ∧
      ((8000000 / 1000 / 256) * 100 < 2 ^ 16 → m'.CC0 = (8000000 / 1000 / 256) * 100) ∧
      (8000000 = 8000000 → 100 ≤ 2114 → m'.CC0 = (8000000 / 1000 / 256) * 100) ∧
      m'.COUNT = 0 :=
  ⟨ready_responsive, C5_timer_set_period Hw.ready 1 8000000 ready_responsive 100 Machine.reset⟩

/-! ## Baud register -/

/-- C6 (as stated, refuted): for `F_CPU = 8000000` and `baud = 115200` the
firmware programs 50436 into `BAUD`, while the quotient
`65536 * 6156800 / 8000000` rounded to nearest is 50437. -/
theorem C6_counterexample :
    (uart_init Hw.ready 1 8000000 115200 Machine.reset).map Machine.BAUD = some 50436 ∧
    round_div (65536 * (8000000 - 16 * 115200)) 8000000 % 2 ^ 16 = 50437 ∧
    8000000 - 16 * 115200 = 6156800 ∧ 16 * 115200 ≤ 8000000 := by
  decide

/-- C6 (amended): for a 32-bit `F_CPU > 0` and every `baud` with
`16 * baud ≤ F_CPU`, `uart_init(baud)` programs `BAUD` with the integer quotient
`65536 * (F_CPU - 16 * baud) / F_CPU` (rounded down) truncated to 16 bits; for
`F_CPU = 8000000` and `baud = 115200` that value is 50436. -/
theorem C6_uart_init_baud (hw : Hw) (fuel F_CPU : Nat) (h : hw.Responsive fuel)
    (baud : Nat) (m : Machine)
    (hF : 0 < F_CPU) (hF32 : F_CPU < 2 ^ 32) (hb : 16 * baud ≤ F_CPU) :
    ∃ m', uart_init hw fuel F_CPU baud m = some m' ∧
      m'.BAUD = (65536 * (F_CPU - 16 * baud) / F_CPU) % 2 ^ 16 ∧
      (F_CPU = 8000000 → baud = 115200 → m'.BAUD = 50436) := by
  obtain ⟨t', ht⟩ := uart_init_some h F_CPU baud m
  have hnum : 65536 * ((F_CPU % 2 ^ 32 + 2 ^ 32 - (16 * baud) % 2 ^ 32) % 2 ^ 32) % 2 ^ 64 =
      65536 * (F_CPU - 16 * baud) := by
    omega
  have hbr : uart_br F_CPU baud = 65536 * (F_CPU - 16 * baud) / F_CPU := by
    unfold uart_br
    rw [hnum]
  refine ⟨_, ht, ?_, ?_⟩
  · show uart_br F_CPU baud % 2 ^ 16 = _
    rw [hbr]
  · intro h8 h115
    show uart_br F_CPU baud % 2 ^ 16 = _
    subst h8 h115
    decide

theorem C6_uart_init_baud_witness :
    Hw.ready.Responsive 1 ∧
    0 < 8000000 ∧ 8000000 < 2 ^ 32 ∧ 16 * 115200 ≤ 8000000 ∧
    ∃ m', uart_init Hw.ready 1 8000000 115200 Machine.reset = some m' ∧
      m'.BAUD = (65536 * (8000000 - 16 * 115200) / 8000000) % 2 ^ 16 ∧
      (8000000 = 8000000 → 115200 = 115200 → m'.BAUD = 50436) :=
  ⟨ready_responsive, by decide, by decide, by decide,
    C6_uart_init_baud Hw.ready 1 8000000 ready_responsive 115200 Machine.reset
      (by decide) (by decide) (by decide)⟩

/-! ## Serial output -/

/-- C7: for a string `s` that contains a null byte, when the data-register-empty
waits end, `uart_puts(s)` returns having written to `DATA` exactly the bytes of
`s` in front of its first null, in order, by one `uart_putc` call for each and no
other call; a string that starts with the null writes nothing. -/
theorem C7_uart_puts (hw : Hw) (fuel : Nat) (h : hw.Responsive fuel)
    (s : List Nat) (m : Machine) (hnull : 0 ∈ s) :
    ∃ m', uart_puts hw fuel s m = some m' ∧
      m'.DATA = m.DATA ++ s.takeWhile (· != 0) ∧
      m'.calls = m.calls ++ (s.takeWhile (· != 0)).map Call.uart_putc ∧
      (∀ c ∈ s.takeWhile (· != 0), c ≠ 0) ∧
      (s.head? = some 0 → m'.DATA = m.DATA ∧ m'.calls = m.calls) := by
  obtain ⟨t', ht⟩ := uart_puts_some h s m hnull
  refine ⟨_, ht, rfl, rfl, ?_, ?_⟩
  · intro c hc
    have := List.mem_takeWhile_imp hc
    simpa using this
  · intro hh
    cases s with
    | nil => simp at hh
    | cons c s =>
      simp only [List.head?_cons, Option.some.injEq] at hh
      subst hh
      simp

theorem C7_uart_puts_witness :
    Hw.ready.Responsive 1 ∧
    0 ∈ [72, 105, 0, 33] ∧
    ∃ m', uart_puts Hw.ready 1 [72, 105, 0, 33] Machine.reset = some m' ∧
      m'.DATA = Machine.reset.DATA ++ [72, 105, 0, 33].takeWhile (· != 0) ∧
      m'.calls = Machine.reset.calls ++
        ([72, 105, 0, 33].takeWhile (· != 0)).map Call.uart_putc ∧
      (∀ c ∈ [72, 105, 0, 33].takeWhile (· != 0), c ≠ 0) ∧
      ([72, 105, 0, 33].head? = some 0 →
        m'.DATA = Machine.reset.DATA ∧ m'.calls = Machine.reset.calls) :=
  ⟨ready_responsive, by decide, C7_uart_puts Hw.ready 1 ready_responsive [72, 105, 0, 33] Machine.reset (by decide)⟩

/-- C8 (as stated, refuted): after boot and no loop pass, 17 bytes have been
written to the serial port and `fast` has flipped 0 times; the count is not
18 + 0. -/
theorem C8_counterexample :
    (main Hw.ready 1 8000000 []).map (fun s => s.m.DATA.length) = some 17 ∧
    main_flips Hw.ready 1 8000000 [] = 0 ∧
    (main Hw.ready 1 8000000 []).map (fun s => s.m.DATA.length) ≠
      some (18 + main_flips Hw.ready 1 8000000 []) := by
  decide

/-- C8 (amended): from reset, after any number of loop passes over any button
reads, the bytes written to the serial port are the 17 characters
`\r\nHello, world!\r\n` followed by exactly `n` bytes `.`, where `n` is the
number of passes in which `fast` has flipped; nothing else is written. -/
theorem C8_serial_output (hw : Hw) (fuel F_CPU : Nat) (h : hw.Responsive fuel)
    (reads : List Bool) :
    ∃ s, main hw fuel F_CPU reads = some s ∧
      s.m.DATA = greeting_text ++ List.replicate (main_flips hw fuel F_CPU reads) 46 ∧
      greeting_text =
        [13, 10, 72, 101, 108, 108, 111, 44, 32, 119, 111, 114, 108, 100, 33, 13, 10] ∧
      greeting_text.length = 17 := by
  obtain ⟨s0, h0, _, _, _, hd0, _⟩ := main_boot h F_CPU
  obtain ⟨s, hs, hd⟩ := main_loop_data h F_CPU reads s0
  refine ⟨s, by rw [main_eq_bind, h0]; exact hs, ?_, by decide, by decide⟩
  rw [hd, hd0]
  simp only [main_flips, h0]

theorem C8_serial_output_witness :
    Hw.ready.Responsive 1 ∧
    ∃ s, main Hw.ready 1 8000000 [false, true] = some s ∧
      s.m.DATA = greeting_text ++ List.replicate (main_flips Hw.ready 1 8000000 [false, true]) 46 ∧
      greeting_text =
        [13, 10, 72, 101, 108, 108, 111, 44, 32, 119, 111, 114, 108, 100, 33, 13, 10] ∧
      greeting_text.length = 17 :=
  ⟨ready_responsive, C8_serial_output Hw.ready 1 8000000 ready_responsive [false, true]⟩

/-! ## The flag and the timer period -/

/-- C10: after `timer_init` and after any number of loop passes of `main` over
any button reads, the value last passed to `timer_set_period` is 500 exactly
when `fast` is false and 100 exactly when `fast` is true, and the compare
register holds `(F_CPU / 1000 / 256)` times that value as a 16-bit number; at
`F_CPU = 8000000` it holds the product itself, both products being below
`2 ^ 16`. -/
theorem C10_period_agrees_with_fast (hw : Hw) (fuel F_CPU : Nat) (h : hw.Responsive fuel)
    (reads : List Bool) :
    (∃ m, timer_init hw fuel F_CPU Machine.reset = some m ∧
      last_period m.calls = some PERIOD_SLOW ∧
      m.CC0 = ((F_CPU / 1000 / 256) * 500) % 2 ^ 16 ∧
      (F_CPU = 8000000 → m.CC0 = (F_CPU / 1000 / 256) * 500)) ∧
    (∃ s, main hw fuel F_CPU reads = some s ∧
      (last_period s.m.calls = some 500 ↔ s.fast = false) ∧
      (last_period s.m.calls = some 100 ↔ s.fast = true) ∧
      s.m.CC0 = ((F_CPU / 1000 / 256) * (if s.fast then 100 else 500)) % 2 ^ 16 ∧
      (F_CPU = 8000000 → s.fast = false → s.m.CC0 = (F_CPU / 1000 / 256) * 500) ∧
      (F_CPU = 8000000 → s.fast = true → s.m.CC0 = (F_CPU / 1000 / 256) * 100)) ∧
    (8000000 / 1000 / 256) * 500 < 2 ^ 16 ∧ (8000000 / 1000 / 256) * 100 < 2 ^ 16 ∧
    PERIOD_SLOW = 500 ∧ PERIOD_FAST = 100 := by
  refine ⟨?_, ?_, by decide, by decide, rfl, rfl⟩
  · obtain ⟨t', ht⟩ := timer_init_some h F_CPU Machine.reset
    refine ⟨_, ht, rfl, rfl, ?_⟩
    intro hF
    have h31 : F_CPU / 1000 / 256 = 31 := by rw [hF]
    show (F_CPU / 1000 / 256) * 500 % 2 ^ 16 = (F_CPU / 1000 / 256) * 500
    rw [h31]
    decide
  · obtain ⟨s, hs, hl, hcc⟩ := period_follows_fast h F_CPU reads
    refine ⟨s, hs, ?_, ?_, hcc, ?_, ?_⟩
    · rw [hl]; cases s.fast <;> simp
    · rw [hl]; cases s.fast <;> simp
    · intro hF hf
      have h31 : F_CPU / 1000 / 256 = 31 := by rw [hF]
      rw [hcc, hf, h31]; rfl
    · intro hF hf
      have h31 : F_CPU / 1000 / 256 = 31 := by rw [hF]
      rw [hcc, hf, h31]; rfl

theorem C10_period_agrees_with_fast_witness :
    Hw.ready.Responsive 1 ∧
    (∃ m, timer_init Hw.ready 1 8000000 Machine.reset = some m ∧
      last_period m.calls = some PERIOD_SLOW ∧
      m.CC0 = ((8000000 / 1000 / 256) * 500) % 2 ^ 16 ∧
      (8000000 = 8000000 → m.CC0 = (8000000 / 1000 / 256) * 500)) ∧
    (∃ s, main Hw.ready 1 8000000 [false, true, false] = some s ∧
      (last_period s.m.calls = some 500 ↔ s.fast = false) ∧
      (last_period s.m.calls = some 100 ↔ s.fast = true) ∧
      s.m.CC0 = ((8000000 / 1000 / 256) * (if s.fast then 100 else 500)) % 2 ^ 16 ∧
      (8000000 = 8000000 → s.fast = false → s.m.CC0 = (8000000 / 1000 / 256) * 500) ∧
      (8000000 = 8000000 → s.fast = true → s.m.CC0 = (8000000 / 1000 / 256) * 100)) ∧
    (8000000 / 1000 / 256) * 500 < 2 ^ 16 ∧ (8000000 / 1000 / 256) * 100 < 2 ^ 16 ∧
    PERIOD_SLOW = 500 ∧ PERIOD_FAST = 100 :=
  ⟨ready_responsive, C10_period_agrees_with_fast Hw.ready 1 8000000 ready_responsive [false, true, false]⟩

/-! ## When the flag flips -/

/-- C2: from reset, for any button reads `pre` and a further read `r`: `fast`
changes in the pass for `r` if and only if that pass takes the hold counter from
4999 to 5000; a read that resets the counter sets it to 0 and leaves `fast` as it
is; and once the counter is 5001, `fast` and the counter stay as they are over
any further passes that do not reset the counter. -/
theorem C2_flip_iff_edge (hw : Hw) (fuel F_CPU : Nat) (h : hw.Responsive fuel)
    (pre : List Bool) (r : Bool) :
    ∃ s s', main hw fuel F_CPU pre = some s ∧ main hw fuel F_CPU (pre ++ [r]) = some s' ∧
      (s'.fast ≠ s.fast ↔ s.cnt = 4999 ∧ s'.cnt = 5000) ∧
      (r = true → s'.cnt = 0 ∧ s'.fast = s.fast) ∧
      (s.cnt < 5000 → s'.cnt = 0 → s'.fast = s.fast) ∧
      (s.cnt = 5001 → ∀ more : List Bool, (∀ x ∈ more, x = false) →
        ∃ s'', main hw fuel F_CPU (pre ++ more) = some s'' ∧
          s''.fast = s.fast ∧ s''.cnt = 5001) := by
  obtain ⟨s, hs⟩ := main_some h F_CPU pre
  obtain ⟨s', hs', hcnt, h5, hn5⟩ := loop_iteration_spec h F_CPU r s
  have hflip : s'.fast ≠ s.fast ↔ s.cnt = 4999 ∧ s'.cnt = 5000 := by
    constructor
    · intro hne
      by_cases hc : s'.cnt = 5000
      · refine ⟨?_, hc⟩
        rw [hcnt] at hc
        split_ifs at hc <;> omega
      · exact absurd (hn5 hc).1 hne
    · rintro ⟨_, hc⟩
      rw [(h5 hc).1]
      cases s.fast <;> simp
  refine ⟨s, s', hs, ?_, hflip, ?_, ?_, ?_⟩
  · rw [main_append, hs]
    simp only [Option.bind, main_loop, hs']
  · intro hr
    have h0 : s'.cnt = 0 := by rw [hcnt, if_pos hr]
    exact ⟨h0, (hn5 (by omega)).1⟩
  · intro _ h0
    exact (hn5 (by omega)).1
  · intro hc more hall
    have hrep : more = List.replicate more.length false := List.eq_replicate_length.mpr hall
    refine ⟨s, ?_, rfl, hc⟩
    rw [main_append, hs, hrep]
    exact main_loop_held_cap hw fuel F_CPU more.length s hc

theorem C2_flip_iff_edge_witness :
    Hw.ready.Responsive 1 ∧
    ∃ s s', main Hw.ready 1 8000000 [false, false] = some s ∧
      main Hw.ready 1 8000000 ([false, false] ++ [true]) = some s' ∧
      (s'.fast ≠ s.fast ↔ s.cnt = 4999 ∧ s'.cnt = 5000) ∧
      (true = true → s'.cnt = 0 ∧ s'.fast = s.fast) ∧
      (s.cnt < 5000 → s'.cnt = 0 → s'.fast = s.fast) ∧
      (s.cnt = 5001 → ∀ more : List Bool, (∀ x ∈ more, x = false) →
        ∃ s'', main Hw.ready 1 8000000 ([false, false] ++ more) = some s'' ∧
          s''.fast = s.fast ∧ s''.cnt = 5001) :=
  ⟨ready_responsive, C2_flip_iff_edge Hw.ready 1 8000000 ready_responsive [false, false] true⟩

/-! ## End-to-end scenario -/

/-- C4 (as stated, refuted): with the button never pressed, that is with
`HAL_GPIO_BUTTON_read()` returning true in each of 5000 loop passes, there has
been no `timer_set_period(100)` call and no `.` byte, and the counter is 0. -/
theorem C4_counterexample :
    (main Hw.ready 1 8000000 (List.replicate 5000 true)).map
      (fun s => (s.m.calls.count (Call.timer_set_period 100), s.m.DATA.count 46, s.cnt, s.fast))
      = some (0, 0, 0, false) := by
  obtain ⟨s0, h0, hc, hf, hcalls, hdata, _⟩ := main_boot ready_responsive 8000000
  have hrun : main_loop Hw.ready 1 8000000 (List.replicate 5000 true) s0 =
      some { s0 with cnt := 0 } := by
    have hk : ∀ (n : Nat) (s : Main), s.cnt = 0 →
        main_loop Hw.ready 1 8000000 (List.replicate n true) s = some s := by
      intro n
      induction n with
      | zero => intro s _; rfl
      | succ n ih =>
        intro s hs
        have h1 := loop_iteration_true Hw.ready 1 8000000 s
        have hs' : ({ s with cnt := 0 } : Main) = s := by rw [← hs]
        rw [hs'] at h1
        simp only [List.replicate_succ, main_loop, h1, Option.bind]
        exact ih s hs
    rw [hk 5000 s0 hc, ← hc]
  rw [main_of_boot h0, hrun]
  simp only [Option.map, hcalls, hdata, hf]
  decide

/-- C4 (amended): from reset, with the button held, that is with
`HAL_GPIO_BUTTON_read()` returning false (pin low): the first 4999 loop passes
make no call and send nothing, and after exactly 5000 passes there has been
exactly one `timer_set_period(100)` call and one `.`; over 5000 further such
passes the counter is 5001 and there is no further flip, call or byte; one pass
with the read returning true (button released) then sets the counter to 0; and
the following 5000 passes with the read returning false produce exactly one more
flip, with `timer_set_period(500)` and one more `.`, in the last of them. -/
theorem C4_scenario (hw : Hw) (fuel F_CPU : Nat) (h : hw.Responsive fuel) :
    ∃ s0 s1 s3 s4,
      main hw fuel F_CPU [] = some s0 ∧
      (∀ k, k < 5000 → ∃ s, main hw fuel F_CPU (List.replicate k false) = some s ∧
        s.fast = false ∧ s.m.calls = s0.m.calls ∧ s.m.DATA = s0.m.DATA) ∧
      main hw fuel F_CPU (List.replicate 5000 false) = some s1 ∧
      s1.fast = true ∧
      s1.m.calls = s0.m.calls ++ [Call.timer_set_period 100, Call.uart_putc 46] ∧
      s1.m.DATA = s0.m.DATA ++ [46] ∧
      s1.m.calls.count (Call.timer_set_period 100) = 1 ∧ s1.m.DATA.count 46 = 1 ∧
      (∀ k, 1 ≤ k → k ≤ 5000 →
        ∃ s, main hw fuel F_CPU (List.replicate (5000 + k) false) = some s ∧
          s.cnt = 5001 ∧ s.fast = true ∧ s.m.calls = s1.m.calls ∧ s.m.DATA = s1.m.DATA) ∧
      main hw fuel F_CPU (List.replicate 10000 false ++ [true]) = some s3 ∧
      s3.cnt = 0 ∧ s3.fast = true ∧ s3.m.calls = s1.m.calls ∧ s3.m.DATA = s1.m.DATA ∧
      (∀ k, k < 5000 →
        ∃ s, main hw fuel F_CPU (List.replicate 10000 false ++ [true] ++
            List.replicate k false) = some s ∧
          s.fast = true ∧ s.m.calls = s1.m.calls ∧ s.m.DATA = s1.m.DATA) ∧
      main hw fuel F_CPU (List.replicate 10000 false ++ [true] ++
          List.replicate 5000 false) = some s4 ∧
      s4.fast = false ∧
      s4.m.calls = s1.m.calls ++ [Call.timer_set_period 500, Call.uart_putc 46] ∧
      s4.m.DATA = s1.m.DATA ++ [46] ∧
      s4.m.calls.count (Call.timer_set_period 100) = 1 ∧ s4.m.DATA.count 46 = 2 := by
  obtain ⟨s0, h0, hc0, hf0, hcalls0, hdata0, _⟩ := main_boot h F_CPU
  obtain ⟨hlt1, s1, hs1, hc1, hf1, hcalls1, hdata1⟩ := main_loop_hold_5000 h F_CPU s0 hc0
  rw [hf0] at hf1 hcalls1
  have hm1 : main hw fuel F_CPU (List.replicate 5000 false) = some s1 := by
    rw [main_of_boot h0, hs1]
  have hpast : ∀ k, 1 ≤ k →
      main hw fuel F_CPU (List.replicate (5000 + k) false) = some { s1 with cnt := 5001 } := by
    intro k hk
    obtain ⟨n, rfl⟩ : ∃ n, k = n + 1 := ⟨k - 1, by omega⟩
    rw [List.replicate_add, main_append_of hm1,
      main_loop_held_past hw fuel F_CPU n s1 hc1]
  have hm3 : main hw fuel F_CPU (List.replicate 10000 false ++ [true]) =
      some { s1 with cnt := 0 } := by
    have h10 : main hw fuel F_CPU (List.replicate 10000 false) =
        some { s1 with cnt := 5001 } := hpast 5000 (by omega)
    rw [main_append_of h10]
    simp only [main_loop, loop_iteration_true, Option.bind]
  obtain ⟨hlt2, s4, hs4, _, hf4, hcalls4, hdata4⟩ :=
    main_loop_hold_5000 h F_CPU { s1 with cnt := 0 } rfl
  have hf4' : s4.fast = false := by rw [hf4]; show (!s1.fast) = false; rw [hf1]; rfl
  have hcalls4' : s4.m.calls =
      s1.m.calls ++ [Call.timer_set_period 500, Call.uart_putc 46] := by
    rw [hcalls4]; show s1.m.calls ++ [Call.timer_set_period (if s1.fast then 500 else 100), _] = _
    rw [hf1]; rfl
  have hcount0 : s0.m.calls.count (Call.timer_set_period 100) = 0 := by
    rw [hcalls0]; decide
  have hdot0 : s0.m.DATA.count 46 = 0 := by
    rw [hdata0]; decide
  refine ⟨s0, s1, { s1 with cnt := 0 }, s4, h0, ?_, hm1, hf1, hcalls1, hdata1, ?_, ?_, ?_,
    hm3, rfl, hf1, rfl, rfl, ?_, ?_, hf4', hcalls4', hdata4, ?_, ?_⟩
  · intro k hk
    exact ⟨{ s0 with cnt := k }, by rw [main_of_boot h0, hlt1 k hk], hf0, rfl, rfl⟩
  · rw [hcalls1, List.count_append, hcount0]; decide
  · rw [hdata1, List.count_append, hdot0]; decide
  · intro k hk1 _
    exact ⟨_, hpast k hk1, rfl, hf1, rfl, rfl⟩
  · intro k hk
    exact ⟨{ s1 with cnt := k }, by rw [main_append_of hm3, hlt2 k hk], hf1, rfl, rfl⟩
  · rw [main_append_of hm3, hs4]
  · rw [hcalls4', hcalls1, List.count_append, List.count_append, hcount0]; decide
  · show s4.m.DATA.count 46 = 2
    rw [hdata4]
    show (s1.m.DATA ++ [46]).count 46 = 2
    rw [hdata1, List.count_append, List.count_append, hdot0]; decide

theorem C4_scenario_witness :
    Hw.ready.Responsive 1 ∧
    ∃ s0 s1 s3 s4,
      main Hw.ready 1 8000000 [] = some s0 ∧
      (∀ k, k < 5000 → ∃ s, main Hw.ready 1 8000000 (List.replicate k false) = some s ∧
        s.fast = false ∧ s.m.calls = s0.m.calls ∧ s.m.DATA = s0.m.DATA) ∧
      main Hw.ready 1 8000000 (List.replicate 5000 false) = some s1 ∧
      s1.fast = true ∧
      s1.m.calls = s0.m.calls ++ [Call.timer_set_period 100, Call.uart_putc 46] ∧
      s1.m.DATA = s0.m.DATA ++ [46] ∧
      s1.m.calls.count (Call.timer_set_period 100) = 1 ∧ s1.m.DATA.count 46 = 1 ∧
      (∀ k, 1 ≤ k → k ≤ 5000 →
        ∃ s, main Hw.ready 1 8000000 (List.replicate (5000 + k) false) = some s ∧
          s.cnt = 5001 ∧ s.fast = true ∧ s.m.calls = s1.m.calls ∧ s.m.DATA = s1.m.DATA) ∧
      main Hw.ready 1 8000000 (List.replicate 10000 false ++ [true]) = some s3 ∧
      s3.cnt = 0 ∧ s3.fast = true ∧ s3.m.calls = s1.m.calls ∧ s3.m.DATA = s1.m.DATA ∧
      (∀ k, k < 5000 →
        ∃ s, main Hw.ready 1 8000000 (List.replicate 10000 false ++ [true] ++
            List.replicate k false) = some s ∧
          s.fast = true ∧ s.m.calls = s1.m.calls ∧ s.m.DATA = s1.m.DATA) ∧
      main Hw.ready 1 8000000 (List.replicate 10000 false ++ [true] ++
          List.replicate 5000 false) = some s4 ∧
      s4.fast = false ∧
      s4.m.calls = s1.m.calls ++ [Call.timer_set_period 500, Call.uart_putc 46] ∧
      s4.m.DATA = s1.m.DATA ++ [46] ∧
      s4.m.calls.count (Call.timer_set_period 100) = 1 ∧ s4.m.DATA.count 46 = 2 :=
  ⟨ready_responsive, C4_scenario Hw.ready 1 8000000 ready_responsive⟩

end Samd21
